import Mathlib

/-!
Verification development for the maas-billing operational dashboard backend.

The TypeScript sources embedded here:
- `services/metricsService.ts` (src/unnamed/part_000): Prometheus metric
  fetching/aggregation, pod-log based live-request parsing;
- `services/kuadrantService.ts` (src/unnamed/part_001, first section):
  Kubernetes custom-object policy listing with namespace-then-cluster fallback;
- `routes/simulator.ts` (src/unnamed/part_001, two variants): the simulator
  proxy endpoint;
- `routes/metrics.ts` (src/apps/backend/src/routes/metrics.ts): the dashboard
  endpoint.

Modelling conventions:
- JavaScript numbers are modelled by `JsNum`: either `nan` or an exact
  rational.  The sums computed by the code are sums of values parsed from
  decimal strings, so exact rational arithmetic mirrors them; `nan`
  propagates through `add`/`sub` and makes every comparison false, as in JS.
- `undefined` is modelled by `Option.none`; JS truthiness is made explicit
  wherever the code relies on it (`x || d`, `if (!x)`, `x && y`).
- Network / Kubernetes calls are parameters of the embedded functions:
  a function under test receives the outcome of each external call as an
  explicit `Except`/`Option` argument, and where the order or number of
  calls matters the function also returns the trace of calls it performed.
- Thrown exceptions are modelled with `Except`; a `try/catch` in the source
  becomes a `match` on the `Except` value.
-/

namespace Maas

/-- A JavaScript number: `nan` or an exact rational value. -/
inductive JsNum where
  | nan : JsNum
  | val (q : ℚ) : JsNum
deriving DecidableEq, Repr

namespace JsNum

/-- JS `+` on numbers: NaN propagates. -/
def add : JsNum → JsNum → JsNum
  | nan, _ => nan
  | _, nan => nan
  | val a, val b => val (a + b)

/-- JS `-` on numbers: NaN propagates. -/
def sub : JsNum → JsNum → JsNum
  | nan, _ => nan
  | _, nan => nan
  | val a, val b => val (a - b)

/-- JS `<` against a rational constant: every comparison with NaN is false. -/
def ltB (n : JsNum) (q : ℚ) : Bool :=
  match n with
  | nan => false
  | val a => decide (a < q)

/-- JS `>` against a rational constant: every comparison with NaN is false. -/
def gtB (n : JsNum) (q : ℚ) : Bool :=
  match n with
  | nan => false
  | val a => decide (q < a)

/-- JS truthiness of a number: `0` and `NaN` are falsy. -/
def truthy : JsNum → Bool
  | nan => false
  | val q => decide (q ≠ 0)

theorem add_val (a b : ℚ) : add (val a) (val b) = val (a + b) := rfl

theorem addAssoc (x y z : JsNum) : add (add x y) z = add x (add y z) := by
  cases x <;> cases y <;> cases z <;> simp [add, add_assoc]

end JsNum

/-- Characters JS treats as whitespace at the start of `parseInt`/`parseFloat`
input (the common ASCII subset; the code only meets ASCII metric strings). -/
def isJsWs (c : Char) : Bool :=
  c = ' ' || c = '\t' || c = '\n' || c = '\r'

/-- Numeric value of a decimal digit character. -/
def digitVal (c : Char) : ℕ := c.toNat - '0'.toNat

/-- Natural number denoted by a list of decimal digit characters. -/
def natOfDigits (ds : List Char) : ℕ :=
  ds.foldl (fun n c => n * 10 + digitVal c) 0

/-- Hex digit test, as accepted by JS `parseInt` with an `0x` prefix. -/
def isHexDigit (c : Char) : Bool :=
  c.isDigit || ('a' ≤ c && c ≤ 'f') || ('A' ≤ c && c ≤ 'F')

/-- Numeric value of a hex digit character. -/
def hexVal (c : Char) : ℕ :=
  if c.isDigit then c.toNat - '0'.toNat
  else if 'a' ≤ c && c ≤ 'f' then c.toNat - 'a'.toNat + 10
  else c.toNat - 'A'.toNat + 10

/-- Natural number denoted by a list of hex digit characters. -/
def natOfHexDigits (ds : List Char) : ℕ :=
  ds.foldl (fun n c => n * 16 + hexVal c) 0

/-- Read an optional sign, returning the factor and the rest. -/
def readSign : List Char → ℚ × List Char
  | '-' :: rest => (-1, rest)
  | '+' :: rest => (1, rest)
  | cs => (1, cs)

/-- Model of JS `parseInt(s)` (radix 10, with automatic `0x` hex detection):
skip leading whitespace, optional sign, then the longest digit prefix;
`NaN` when no digit is found.  (The `Infinity` keyword is not a `parseInt`
input; fractional and exponent parts are ignored by `parseInt` itself.) -/
def parseIntJS (s : String) : JsNum :=
  let cs := s.toList.dropWhile isJsWs
  let (sgn, cs) := readSign cs
  match cs with
  | '0' :: x :: rest =>
    if x = 'x' || x = 'X' then
      let hs := (rest.takeWhile isHexDigit)
      if hs.isEmpty then JsNum.nan
      else JsNum.val (sgn * (natOfHexDigits hs : ℚ))
    else
      let ds := ('0' :: x :: rest).takeWhile Char.isDigit
      JsNum.val (sgn * (natOfDigits ds : ℚ))
  | cs =>
    let ds := cs.takeWhile Char.isDigit
    if ds.isEmpty then JsNum.nan
    else JsNum.val (sgn * (natOfDigits ds : ℚ))

/-- Read an optional exponent part `e`/`E`, sign, digits; 0 when absent or
incomplete (JS `parseFloat` ignores an incomplete exponent). -/
def readExp : List Char → ℤ
  | 'e' :: rest => readExpTail rest
  | 'E' :: rest => readExpTail rest
  | _ => 0
where
  readExpTail (rest : List Char) : ℤ :=
    let (sgn, rest) := readSign rest
    let ds := rest.takeWhile Char.isDigit
    if ds.isEmpty then 0
    else (if sgn = -1 then -1 else 1) * (natOfDigits ds : ℤ)

/-- Model of JS `parseFloat(s)`: skip leading whitespace, optional sign,
decimal digits with optional fraction and exponent; `NaN` when no digit is
found in either the integer or the fraction part.  (The spelled-out
`Infinity` keyword is not modelled; none of the embedded call sites can
receive it.) -/
def parseFloatJS (s : String) : JsNum :=
  let cs := s.toList.dropWhile isJsWs
  let (sgn, cs) := readSign cs
  let ip := cs.takeWhile Char.isDigit
  let cs1 := cs.dropWhile Char.isDigit
  let (fp, cs2) :=
    match cs1 with
    | '.' :: rest => (rest.takeWhile Char.isDigit, rest.dropWhile Char.isDigit)
    | _ => ([], cs1)
  if ip.isEmpty && fp.isEmpty then JsNum.nan
  else
    let mant : ℚ := (natOfDigits ip : ℚ) + (natOfDigits fp : ℚ) / (10 : ℚ) ^ fp.length
    JsNum.val (sgn * mant * (10 : ℚ) ^ readExp cs2)

/-- JS `a || d` for an optional string `a` (absent or empty is falsy). -/
def jsOrStr (a : Option String) (d : String) : String :=
  match a with
  | some s => if s = "" then d else s
  | none => d

/-!
## Prometheus metric samples and aggregation (metricsService.ts)

A Prometheus instant-query sample is `{metric: {label: value, ...},
value: [timestamp, stringValue]}`.  `labels = none` models a sample object
without a `metric` field, `value = none` one without a `value` field.
-/

/-- One time-series sample as returned by the Prometheus query API. -/
structure Sample where
  labels : Option (List (String × String))
  value : Option (String × String)

/-- `m.metric?.label` — label lookup through the optional chain. -/
def getLabel (m : Sample) (k : String) : Option String :=
  m.labels.bind (fun ls => ls.lookup k)

/-- The string handed to `parseFloat` for one sample:
`metric.value?.[1] || '0'`. -/
def sampleValueStr (m : Sample) : String :=
  jsOrStr (m.value.map Prod.snd) "0"

/-- The parsed numeric value of one sample. -/
def sampleValue (m : Sample) : JsNum :=
  parseFloatJS (sampleValueStr m)

/-- `sumMetricValues` (metricsService.ts):
`metrics.reduce((sum, metric) => sum + parseFloat(metric.value?.[1] || '0'), 0)`. -/
def sumMetricValues (metrics : List Sample) : JsNum :=
  metrics.foldl (fun sum metric => sum.add (sampleValue metric)) (JsNum.val 0)

/-- JS `Map.set` on an insertion-ordered association list: an existing key is
updated in place, a new key is appended. -/
def mapSet (m : List (String × JsNum)) (k : String) (v : JsNum) :
    List (String × JsNum) :=
  match m with
  | [] => [(k, v)]
  | (k', v') :: rest =>
    if k' = k then (k', v) :: rest else (k', v') :: mapSet rest k v

/-- `groupMetricsByNamespace` (metricsService.ts): for each sample,
`namespace = metric.metric?.namespace || 'unknown'`,
`byNamespace.set(namespace, (byNamespace.get(namespace) || 0) + value)`.
Note `(… || 0)` sends a falsy stored number (0 or NaN) back to 0. -/
def groupMetricsByNamespace (metrics : List Sample) : List (String × JsNum) :=
  metrics.foldl
    (fun byNamespace metric =>
      let ns := jsOrStr (getLabel metric "namespace") "unknown"
      let v := sampleValue metric
      let cur :=
        match byNamespace.lookup ns with
        | some x => if x.truthy then x else JsNum.val 0
        | none => JsNum.val 0
      mapSet byNamespace ns (cur.add v))
    []

/-- The aggregate object returned by `fetchPrometheusMetrics`. -/
structure PromAgg where
  totalRequests : JsNum
  successRequests : JsNum
  authFailedRequests : JsNum
  rateLimitedRequests : JsNum
  authByNamespace : List (String × JsNum)
  limitsByNamespace : List (String × JsNum)

/-- The filter applied to authorino samples:
`m.metric?.status_code && parseInt(m.metric.status_code) === 401`. -/
def authFailedPred (m : Sample) : Bool :=
  match getLabel m "status_code" with
  | some s => (if s = "" then false else parseIntJS s = JsNum.val 401)
  | none => false

/-- The filter applied to limitador samples:
`m.metric?.result === 'over_limit'`. -/
def rateLimitedPred (m : Sample) : Bool :=
  getLabel m "result" = some "over_limit"

/-- `fetchPrometheusMetrics` (metricsService.ts), aggregation step, given the
three already-fetched sample sets (the results of the `fetchFromPrometheus`
calls for `istio_requests_total`, `limitador_limit_checks_total` and the
authorino `http_requests_total` query).  The surrounding `try/catch` is
unreachable once the fetches are given: every operation below is total. -/
def fetchPrometheusMetrics (istioRequests limitadorRejected authorinoResponses :
    List Sample) : PromAgg :=
  let totalRequests := sumMetricValues istioRequests
  let authFailedRequests :=
    sumMetricValues (authorinoResponses.filter authFailedPred)
  let rateLimitedRequests :=
    sumMetricValues (limitadorRejected.filter rateLimitedPred)
  let successRequests :=
    (totalRequests.sub authFailedRequests).sub rateLimitedRequests
  { totalRequests := totalRequests
    successRequests := successRequests
    authFailedRequests := authFailedRequests
    rateLimitedRequests := rateLimitedRequests
    authByNamespace := groupMetricsByNamespace authorinoResponses
    limitsByNamespace := groupMetricsByNamespace limitadorRejected }

/-!
## `fetchFromPrometheus`: ordered multi-endpoint fallback (metricsService.ts)

Each endpoint attempt either throws inside `axios.get` (network error or
timeout) or yields a response whose `data` is the parsed body (possibly
absent/falsy).  The Prometheus success wrapper is
`{status: "success", data: {result: [...]}}`.
-/

/-- The `data` member of a Prometheus API response body. -/
structure PromData where
  result : Option (List Sample)

/-- A Prometheus API response body: `{status, data}`. -/
structure PromBody where
  status : String
  data : Option PromData

/-- Outcome of one `axios.get` attempt against one endpoint:
`netError` models a thrown error (unreachable endpoint, timeout);
`ok body` a delivered response with parsed body `body`
(`none` for a falsy/absent body). -/
inductive FetchOutcome where
  | netError : FetchOutcome
  | ok (body : Option PromBody) : FetchOutcome

/-- The fixed, ordered endpoint candidate list of `fetchFromPrometheus`. -/
def prometheusEndpoints : List String :=
  ["http://thanos-querier.openshift-monitoring.svc.cluster.local:9091",
   "http://prometheus-k8s.openshift-monitoring.svc.cluster.local:9090",
   "http://prometheus-user-workload.openshift-user-workload-monitoring.svc.cluster.local:9091"]

/-- A body carrying the Prometheus success wrapper:
`status == 'success'` with a `data` object present. -/
def isSuccessWrapper : FetchOutcome → Bool
  | FetchOutcome.ok (some b) => b.status = "success" && b.data.isSome
  | _ => false

/-- The list the code returns for a success-wrapper response:
`response.data.data.result || []` (an absent/null `result` becomes `[]`). -/
def wrapperResult : FetchOutcome → List Sample
  | FetchOutcome.ok (some b) =>
    match b.data with
    | some d => d.result.getD []
    | none => []
  | _ => []

/-- One loop iteration of `fetchFromPrometheus`:
`ok samples` models the early `return`, `error ()` moving on to the next
endpoint (a thrown error is caught and logged; a response without the
success wrapper falls through; a success-status body without a `data`
object makes `response.data.data.result` throw, which the same `catch`
swallows). -/
def attemptStep (o : FetchOutcome) : Except Unit (List Sample) :=
  match o with
  | FetchOutcome.netError => Except.error ()
  | FetchOutcome.ok none => Except.error ()
  | FetchOutcome.ok (some b) =>
    if b.status = "success" then
      match b.data with
      | some d => Except.ok (d.result.getD [])
      | none => Except.error ()
    else Except.error ()

/-- The endpoint loop of `fetchFromPrometheus`, also returning the list of
endpoints actually attempted, in order. -/
def fetchLoop (resp : String → FetchOutcome) :
    List String → List Sample × List String
  | [] => ([], [])
  | e :: rest =>
    match attemptStep (resp e) with
    | Except.ok samples => (samples, [e])
    | Except.error _ =>
      let (r, tried) := fetchLoop resp rest
      (r, e :: tried)

/-- `fetchFromPrometheus` (metricsService.ts), parameterized by the outcome
of the HTTP attempt against each endpoint.  First component: the returned
sample list; second: the endpoints attempted, in order. -/
def fetchFromPrometheus (resp : String → FetchOutcome) :
    List Sample × List String :=
  fetchLoop resp prometheusEndpoints

/-!
## Spec-side formulations and lemmas for the aggregation claims
-/

/-- Spec-side sum of a sample set: the sum of the samples' parsed values. -/
def specSum (ms : List Sample) : JsNum :=
  (ms.map sampleValue).foldr JsNum.add (JsNum.val 0)

/-- Spec-side auth-failure filter: the `status_code` label parses to 401. -/
def specAuthPred (m : Sample) : Bool :=
  match getLabel m "status_code" with
  | some s => parseIntJS s = JsNum.val 401
  | none => false

theorem JsNum.addZero (x : JsNum) : JsNum.add x (JsNum.val 0) = x := by
  cases x <;> simp [JsNum.add]

theorem sumAux (ms : List Sample) :
    ∀ a : JsNum,
      List.foldl (fun sum m => sum.add (sampleValue m)) a ms =
        a.add ((ms.map sampleValue).foldr JsNum.add (JsNum.val 0)) := by
  induction ms with
  | nil => intro a; simp [JsNum.addZero]
  | cons m rest ih =>
    intro a
    simp only [List.foldl_cons, List.map_cons, List.foldr_cons]
    rw [ih, JsNum.addAssoc]

theorem sumMetricValues_eq_specSum (ms : List Sample) :
    sumMetricValues ms = specSum ms := by
  have h := sumAux ms (JsNum.val 0)
  simp only [sumMetricValues, specSum, h]
  cases (ms.map sampleValue).foldr JsNum.add (JsNum.val 0) <;>
    simp [JsNum.add]

theorem parseIntJS_empty : parseIntJS "" = JsNum.nan := rfl

theorem authFailedPred_eq_spec (m : Sample) :
    authFailedPred m = specAuthPred m := by
  unfold authFailedPred specAuthPred
  cases h : getLabel m "status_code" with
  | none => rfl
  | some s =>
    by_cases hs : s = ""
    · subst hs
      simp [parseIntJS_empty]
    · simp [hs]

/-- C3. The aggregator computes `total` as the sum of all total-request
sample values, `authFailed` as the sum over auth samples whose `status_code`
label parses to 401, `rateLimited` as the sum over limit samples whose
`result` label equals `"over_limit"`, and `success` as
`total - authFailed - rateLimited`. -/
theorem prometheus_aggregation_follows_spec
    (istioRequests limitadorRejected authorinoResponses : List Sample) :
    let agg := fetchPrometheusMetrics istioRequests limitadorRejected
      authorinoResponses
    agg.totalRequests = specSum istioRequests ∧
    agg.authFailedRequests = specSum (authorinoResponses.filter specAuthPred) ∧
    agg.rateLimitedRequests =
      specSum (limitadorRejected.filter
        (fun m => getLabel m "result" = some "over_limit")) ∧
    agg.successRequests =
      (agg.totalRequests.sub agg.authFailedRequests).sub
        agg.rateLimitedRequests := by
  intro agg
  have hfilter : authorinoResponses.filter authFailedPred =
      authorinoResponses.filter specAuthPred := by
    have : authFailedPred = specAuthPred := funext authFailedPred_eq_spec
    rw [this]
  refine ⟨?_, ?_, ?_, ?_⟩
  · exact sumMetricValues_eq_specSum istioRequests
  · show sumMetricValues (authorinoResponses.filter authFailedPred) = _
    rw [hfilter, sumMetricValues_eq_specSum]
  · exact sumMetricValues_eq_specSum _
  · rfl

/-- A sample whose value string parses to a non-negative rational. -/
def wellFormedSample (m : Sample) : Prop :=
  ∃ q : ℚ, 0 ≤ q ∧ sampleValue m = JsNum.val q

theorem specSum_nonneg (ms : List Sample)
    (h : ∀ m ∈ ms, wellFormedSample m) :
    ∃ q : ℚ, 0 ≤ q ∧ specSum ms = JsNum.val q := by
  induction ms with
  | nil => exact ⟨0, le_refl 0, rfl⟩
  | cons m rest ih =>
    obtain ⟨qr, hqr, hrest⟩ := ih (fun x hx => h x (List.mem_cons_of_mem m hx))
    obtain ⟨qm, hqm, hm⟩ := h m (List.mem_cons_self m rest)
    refine ⟨qm + qr, by positivity, ?_⟩
    simp only [specSum, List.map_cons, List.foldr_cons] at *
    rw [hm, hrest, JsNum.add_val]

theorem sum_nonneg_of_wellFormed (ms : List Sample)
    (h : ∀ m ∈ ms, wellFormedSample m) :
    ∃ q : ℚ, 0 ≤ q ∧ sumMetricValues ms = JsNum.val q := by
  rw [sumMetricValues_eq_specSum]
  exact specSum_nonneg ms h

/-- C2 (amended). On well-formed inputs the three summed components are
non-negative rationals and `success = total - authFailed - rateLimited`
exactly; `success` itself is not clamped and can be negative (see the
counterexample). -/
theorem prometheus_success_identity
    (istioRequests limitadorRejected authorinoResponses : List Sample)
    (h1 : ∀ m ∈ istioRequests, wellFormedSample m)
    (h2 : ∀ m ∈ limitadorRejected, wellFormedSample m)
    (h3 : ∀ m ∈ authorinoResponses, wellFormedSample m) :
    ∃ qt qa qr : ℚ, 0 ≤ qt ∧ 0 ≤ qa ∧ 0 ≤ qr ∧
      (fetchPrometheusMetrics istioRequests limitadorRejected
        authorinoResponses).totalRequests = JsNum.val qt ∧
      (fetchPrometheusMetrics istioRequests limitadorRejected
        authorinoResponses).authFailedRequests = JsNum.val qa ∧
      (fetchPrometheusMetrics istioRequests limitadorRejected
        authorinoResponses).rateLimitedRequests = JsNum.val qr ∧
      (fetchPrometheusMetrics istioRequests limitadorRejected
        authorinoResponses).successRequests = JsNum.val (qt - qa - qr) := by
  obtain ⟨qt, hqt, ht⟩ := sum_nonneg_of_wellFormed istioRequests h1
  obtain ⟨qa, hqa, ha⟩ := sum_nonneg_of_wellFormed
    (authorinoResponses.filter authFailedPred)
    (fun m hm => h3 m (List.mem_of_mem_filter hm))
  obtain ⟨qr, hqr, hr⟩ := sum_nonneg_of_wellFormed
    (limitadorRejected.filter rateLimitedPred)
    (fun m hm => h2 m (List.mem_of_mem_filter hm))
  refine ⟨qt, qa, qr, hqt, hqa, hqr, ht, ha, hr, ?_⟩
  show ((sumMetricValues istioRequests).sub _).sub _ = _
  rw [ht, ha, hr]
  rfl

/-- A well-formed istio sample with value 3, for the C2 witness. -/
def istioSample3 : Sample := ⟨some [("namespace", "llm")], some ("t", "3")⟩

theorem sampleValue_istioSample3 : sampleValue istioSample3 = JsNum.val 3 := by
  simp [sampleValue, sampleValueStr, istioSample3, jsOrStr, parseFloatJS,
    readSign, readExp, natOfDigits, digitVal, isJsWs]

/-- Witness for `prometheus_success_identity` at concrete well-formed input. -/
theorem prometheus_success_identity_witness :
    ∃ qt qa qr : ℚ, 0 ≤ qt ∧ 0 ≤ qa ∧ 0 ≤ qr ∧
      (fetchPrometheusMetrics [istioSample3] [] []).totalRequests =
        JsNum.val qt ∧
      (fetchPrometheusMetrics [istioSample3] [] []).authFailedRequests =
        JsNum.val qa ∧
      (fetchPrometheusMetrics [istioSample3] [] []).rateLimitedRequests =
        JsNum.val qr ∧
      (fetchPrometheusMetrics [istioSample3] [] []).successRequests =
        JsNum.val (qt - qa - qr) :=
  prometheus_success_identity [istioSample3] [] []
    (fun m hm => by
      cases hm with
      | head => exact ⟨3, by norm_num, sampleValue_istioSample3⟩
      | tail _ h => cases h)
    (fun m hm => by cases hm)
    (fun m hm => by cases hm)

/-- An authorino 401 sample with value 5 and no istio traffic: well-formed
input on which `success` is negative. -/
def authSample401 : Sample := ⟨some [("status_code", "401")], some ("t", "5")⟩

theorem sampleValue_authSample401 : sampleValue authSample401 = JsNum.val 5 := by
  simp [sampleValue, sampleValueStr, authSample401, jsOrStr, parseFloatJS,
    readSign, readExp, natOfDigits, digitVal, isJsWs]

/-- C2 counterexample (refutes the claim as stated): with no istio samples
and one well-formed authorino 401 sample of value 5, the computed
`successRequests` component equals -5 < 0, so not all components are
non-negative. -/
theorem prometheus_success_can_be_negative :
    (∀ m ∈ [authSample401], wellFormedSample m) ∧
    (fetchPrometheusMetrics [] [] [authSample401]).successRequests =
      JsNum.val (-5) ∧ (-5 : ℚ) < 0 := by
  refine ⟨?_, ?_, by norm_num⟩
  · intro m hm
    cases hm with
    | head => exact ⟨5, by norm_num, sampleValue_authSample401⟩
    | tail _ h => cases h
  · show ((sumMetricValues []).sub
        (sumMetricValues (List.filter authFailedPred [authSample401]))).sub
        (sumMetricValues (List.filter rateLimitedPred [])) = JsNum.val (-5)
    have hp : authFailedPred authSample401 = true := by
      simp [authFailedPred, getLabel, authSample401, parseIntJS, readSign,
        natOfDigits, digitVal, isJsWs]
    have hsum : sumMetricValues [authSample401] = JsNum.val 5 := by
      simp [sumMetricValues, sampleValue_authSample401, JsNum.add]
    simp only [List.filter, hp, List.filter_nil]
    rw [hsum]
    show JsNum.val (0 - 5 - 0) = JsNum.val (-5)
    norm_num

/-!
## C4: ordered fallback behaviour of `fetchFromPrometheus`
-/

theorem attemptStep_error_of_not_wrapper (o : FetchOutcome)
    (h : isSuccessWrapper o = false) : attemptStep o = Except.error () := by
  cases o with
  | netError => rfl
  | ok body =>
    cases body with
    | none => rfl
    | some b =>
      simp only [isSuccessWrapper, Bool.and_eq_false_imp] at h
      by_cases hs : b.status = "success"
      · cases hd : b.data with
        | none => simp [attemptStep, hs, hd]
        | some d =>
          exfalso
          have := h (by simp [hs])
          rw [hd] at this
          simp at this
      · simp [attemptStep, hs]

theorem attemptStep_ok_of_wrapper (o : FetchOutcome)
    (h : isSuccessWrapper o = true) :
    attemptStep o = Except.ok (wrapperResult o) := by
  cases o with
  | netError => simp [isSuccessWrapper] at h
  | ok body =>
    cases body with
    | none => simp [isSuccessWrapper] at h
    | some b =>
      simp only [isSuccessWrapper, Bool.and_eq_true, decide_eq_true_eq] at h
      obtain ⟨hs, hd⟩ := h
      obtain ⟨d, hd⟩ := Option.isSome_iff_exists.mp hd
      simp [attemptStep, wrapperResult, hs, hd]

theorem fetchLoop_all_fail (resp : String → FetchOutcome) :
    ∀ es : List String, (∀ e ∈ es, isSuccessWrapper (resp e) = false) →
      fetchLoop resp es = ([], es) := by
  intro es
  induction es with
  | nil => intro _; rfl
  | cons e rest ih =>
    intro h
    have he := attemptStep_error_of_not_wrapper (resp e)
      (h e (List.mem_cons_self e rest))
    have hr := ih (fun x hx => h x (List.mem_cons_of_mem e hx))
    simp [fetchLoop, he, hr]

theorem fetchLoop_first_success (resp : String → FetchOutcome)
    (e : String) (post : List String)
    (he : isSuccessWrapper (resp e) = true) :
    ∀ pre : List String, (∀ x ∈ pre, isSuccessWrapper (resp x) = false) →
      fetchLoop resp (pre ++ e :: post) =
        (wrapperResult (resp e), pre ++ [e]) := by
  intro pre
  induction pre with
  | nil =>
    intro _
    simp [fetchLoop, attemptStep_ok_of_wrapper (resp e) he]
  | cons x rest ih =>
    intro h
    have hx := attemptStep_error_of_not_wrapper (resp x)
      (h x (List.mem_cons_self x rest))
    have hr := ih (fun y hy => h y (List.mem_cons_of_mem x hy))
    simp [fetchLoop, hx, hr]

/-- C4. `fetchFromPrometheus` attempts the candidate endpoints in their
fixed order: the first endpoint whose response carries the success status
wrapper determines the returned (parsed) result set and no later endpoint is
attempted; when every attempt fails (thrown error or a response without the
success wrapper) the function returns an empty list — it is total, so it
never throws. -/
theorem fetchFromPrometheus_fallback_order (resp : String → FetchOutcome) :
    ((∀ e ∈ prometheusEndpoints, isSuccessWrapper (resp e) = false) →
      fetchFromPrometheus resp = ([], prometheusEndpoints)) ∧
    (∀ pre e post, prometheusEndpoints = pre ++ e :: post →
      (∀ x ∈ pre, isSuccessWrapper (resp x) = false) →
      isSuccessWrapper (resp e) = true →
      fetchFromPrometheus resp = (wrapperResult (resp e), pre ++ [e])) := by
  constructor
  · intro h
    exact fetchLoop_all_fail resp prometheusEndpoints h
  · intro pre e post hsplit hpre he
    show fetchLoop resp prometheusEndpoints = _
    rw [hsplit]
    exact fetchLoop_first_success resp e post he pre hpre

/-- A response carrying the success wrapper with one sample, for the C4
witness. -/
def successOutcome : FetchOutcome :=
  FetchOutcome.ok (some ⟨"success", some ⟨some [istioSample3]⟩⟩)

/-- Witness for `fetchFromPrometheus_fallback_order`: all endpoints
erroring yields `([], all three tried)`; a first-endpoint success wrapper
yields its result with only that endpoint tried. -/
theorem fetchFromPrometheus_fallback_order_witness :
    fetchFromPrometheus (fun _ => FetchOutcome.netError) =
      ([], prometheusEndpoints) ∧
    fetchFromPrometheus (fun _ => successOutcome) =
      ([istioSample3],
       ["http://thanos-querier.openshift-monitoring.svc.cluster.local:9091"]) :=
  ⟨(fetchFromPrometheus_fallback_order (fun _ => FetchOutcome.netError)).1
      (fun e _ => rfl),
   (fetchFromPrometheus_fallback_order (fun _ => successOutcome)).2
      []
      "http://thanos-querier.openshift-monitoring.svc.cluster.local:9091"
      ["http://prometheus-k8s.openshift-monitoring.svc.cluster.local:9090",
       "http://prometheus-user-workload.openshift-user-workload-monitoring.svc.cluster.local:9091"]
      rfl (fun x hx => by cases hx) rfl⟩

/-!
## C7: missing vs unparsable sample values
-/

/-- A sample whose value string has no numeric prefix: its `parseFloat` is
NaN, not zero. -/
def badValueSample : Sample := ⟨none, some ("t", "abc")⟩

theorem sampleValue_badValueSample : sampleValue badValueSample = JsNum.nan := by
  simp [sampleValue, sampleValueStr, badValueSample, jsOrStr, parseFloatJS,
    readSign, readExp, natOfDigits, digitVal, isJsWs]

/-- C7 counterexample (refutes the claim as stated): a sample whose value
string is `"abc"` does not contribute zero — both the sum and the namespace
grouping come out NaN. -/
theorem unparsable_value_yields_nan :
    sumMetricValues [badValueSample] = JsNum.nan ∧
    groupMetricsByNamespace [badValueSample] = [("unknown", JsNum.nan)] := by
  constructor
  · simp [sumMetricValues, sampleValue_badValueSample, JsNum.add]
  · show mapSet [] "unknown" ((JsNum.val 0).add (sampleValue badValueSample)) = _
    rw [sampleValue_badValueSample]
    rfl

/-- A sample's value is absent, or present with an empty value string. -/
def missingValue (m : Sample) : Prop :=
  m.value = none ∨ ∃ ts, m.value = some (ts, "")

theorem sampleValue_of_missing (m : Sample) (h : missingValue m) :
    sampleValue m = JsNum.val 0 := by
  have hstr : sampleValueStr m = "0" := by
    cases h with
    | inl h => simp [sampleValueStr, h, jsOrStr]
    | inr h => obtain ⟨ts, h⟩ := h; simp [sampleValueStr, h, jsOrStr]
  rw [sampleValue, hstr]
  simp [parseFloatJS, readSign, readExp, natOfDigits, digitVal, isJsWs]

theorem lookupMem (k : String) (x : JsNum) :
    ∀ l : List (String × JsNum), l.lookup k = some x → (k, x) ∈ l := by
  intro l
  induction l with
  | nil => intro h; simp [List.lookup] at h
  | cons p rest ih =>
    obtain ⟨a, b⟩ := p
    intro h
    rw [List.lookup] at h
    by_cases hk : k = a
    · subst hk
      simp only [beq_self_eq_true] at h
      cases h
      exact List.mem_cons_self _ _
    · have hf : (k == a) = false := beq_false_of_ne hk
      rw [hf] at h
      exact List.mem_cons_of_mem _ (ih h)

theorem mapSet_all_zero (acc : List (String × JsNum)) (k : String)
    (hacc : ∀ p ∈ acc, p.2 = JsNum.val 0) :
    ∀ p ∈ mapSet acc k (JsNum.val 0), p.2 = JsNum.val 0 := by
  induction acc with
  | nil => intro p hp; cases hp with
    | head => rfl
    | tail _ h => cases h
  | cons q rest ih =>
    intro p hp
    simp only [mapSet] at hp
    by_cases hk : q.1 = k
    · simp only [hk, if_pos rfl] at hp
      cases hp with
      | head => rfl
      | tail _ h => exact hacc p (List.mem_cons_of_mem q h)
    · rw [if_neg hk] at hp
      cases hp with
      | head => exact hacc q (List.mem_cons_self q rest)
      | tail _ h =>
        exact ih (fun r hr => hacc r (List.mem_cons_of_mem q hr)) p h

theorem group_all_zero (ms : List Sample) (hms : ∀ m ∈ ms, missingValue m) :
    ∀ acc : List (String × JsNum), (∀ p ∈ acc, p.2 = JsNum.val 0) →
      ∀ p ∈ ms.foldl
        (fun byNamespace metric =>
          let ns := jsOrStr (getLabel metric "namespace") "unknown"
          let v := sampleValue metric
          let cur :=
            match byNamespace.lookup ns with
            | some x => if x.truthy then x else JsNum.val 0
            | none => JsNum.val 0
          mapSet byNamespace ns (cur.add v)) acc,
        p.2 = JsNum.val 0 := by
  induction ms with
  | nil => intro acc hacc p hp; exact hacc p hp
  | cons m rest ih =>
    intro acc hacc p hp
    simp only [List.foldl_cons] at hp
    refine ih (fun x hx => hms x (List.mem_cons_of_mem m hx)) _ ?_ p hp
    have hv := sampleValue_of_missing m (hms m (List.mem_cons_self m rest))
    set ns := jsOrStr (getLabel m "namespace") "unknown" with hns
    have hcur : (match acc.lookup ns with
        | some x => if x.truthy then x else JsNum.val 0
        | none => JsNum.val 0) = JsNum.val 0 := by
      cases hl : acc.lookup ns with
      | none => rfl
      | some x =>
        have := hacc (ns, x) (lookupMem ns x acc hl)
        simp only at this
        simp [this, JsNum.truthy]
    intro q hq
    refine mapSet_all_zero acc ns hacc q ?_
    simpa [hv, hcur, JsNum.add] using hq

/-- C7 (amended). A sample whose value is missing (or whose value string is
empty) contributes zero: on such inputs `sumMetricValues` is 0 and every
namespace total produced by `groupMetricsByNamespace` is 0 — and both
functions are total, so they never raise.  (A present, non-numeric value
string instead contributes NaN; see the counterexample.) -/
theorem missing_values_contribute_zero (ms : List Sample)
    (hms : ∀ m ∈ ms, missingValue m) :
    sumMetricValues ms = JsNum.val 0 ∧
    ∀ p ∈ groupMetricsByNamespace ms, p.2 = JsNum.val 0 := by
  constructor
  · rw [sumMetricValues_eq_specSum]
    induction ms with
    | nil => rfl
    | cons m rest ih =>
      have hv := sampleValue_of_missing m (hms m (List.mem_cons_self m rest))
      have hr := ih (fun x hx => hms x (List.mem_cons_of_mem m hx))
      simp only [specSum, List.map_cons, List.foldr_cons] at *
      rw [hv, hr]
      simp [JsNum.add]
  · exact group_all_zero ms hms [] (fun p hp => by cases hp)

/-- A sample with no value field at all, for the C7 witness. -/
def noValueSample : Sample := ⟨some [("namespace", "llm")], none⟩

/-- Witness for `missing_values_contribute_zero` at a concrete sample. -/
theorem missing_values_contribute_zero_witness :
    sumMetricValues [noValueSample] = JsNum.val 0 ∧
    ∀ p ∈ groupMetricsByNamespace [noValueSample], p.2 = JsNum.val 0 :=
  missing_values_contribute_zero [noValueSample]
    (fun m hm => by
      cases hm with
      | head => exact Or.inl rfl
      | tail _ h => cases h)

/-!
## JSON values and `JSON.parse` (for the access-log parser)

`Json` models the values `JSON.parse` can produce.  Object fields keep
first-occurrence order with a later duplicate key overwriting the value,
as `JSON.parse` does.
-/

/-- A parsed JSON value. -/
inductive Json where
  | null : Json
  | bool (b : Bool) : Json
  | num (q : ℚ) : Json
  | str (s : String) : Json
  | arr (elems : List Json) : Json
  | obj (fields : List (String × Json)) : Json

/-- JS truthiness of a JSON value (`NaN` cannot occur in parsed JSON). -/
def Json.truthy : Json → Bool
  | Json.null => false
  | Json.bool b => b
  | Json.num q => decide (q ≠ 0)
  | Json.str s => decide (s ≠ "")
  | Json.arr _ => true
  | Json.obj _ => true

/-- Truthiness of a possibly-`undefined` value. -/
def truthyOpt : Option Json → Bool
  | some j => j.truthy
  | none => false

/-- `a || b` where `a` may be `undefined` and the fallback is a value. -/
def jsOrJ (a : Option Json) (b : Json) : Json :=
  match a with
  | some j => if j.truthy then j else b
  | none => b

/-- `a || b` where both sides may be `undefined`
(the result is `b` as-is when `a` is falsy). -/
def jsOrOpt (a b : Option Json) : Option Json :=
  if truthyOpt a then a else b

/-- Property access `j.k` on a parsed value: a lookup on objects,
`undefined` otherwise (a parsed top-level object is never `null`, so the
`null`-receiver TypeError cannot occur at the embedded call sites). -/
def jget (j : Json) (k : String) : Option Json :=
  match j with
  | Json.obj fs => fs.lookup k
  | _ => none

/-- Smallest number of decimal digits after the point that makes `q` an
integer, if at most 20 (every value parsed from a decimal literal of that
precision qualifies). -/
def ratDecimalDigits (q : ℚ) : Option ℕ :=
  (List.range 21).find? (fun k => (q * (10 : ℚ) ^ k).den = 1)

/-- JS number-to-string coercion for the rationals this model can meet:
integers print as integers, finite decimals with their digits.  (Rationals
with no finite decimal expansion cannot arise from parsed decimal input;
they get a marker rendering.) -/
def jsNumToString (q : ℚ) : String :=
  if q.den = 1 then toString q.num
  else
    match ratDecimalDigits q with
    | some k =>
      let n := (q * (10 : ℚ) ^ k).num.natAbs
      let ds := toString n
      let ds := if ds.length ≤ k then
          String.mk (List.replicate (k + 1 - ds.length) '0') ++ ds
        else ds
      (if q < 0 then "-" else "") ++ ds.dropRight k ++ "." ++ ds.takeRight k
    | none => toString q.num ++ "/" ++ toString q.den

mutual

/-- JS string coercion of a value, as applied by `parseInt`/`parseFloat` to
a non-string argument. -/
def toJsString : Json → String
  | Json.null => "null"
  | Json.bool b => if b then "true" else "false"
  | Json.num q => jsNumToString q
  | Json.str s => s
  | Json.arr xs => toJsStringList xs
  | Json.obj _ => "[object Object]"

/-- Array-to-string coercion: elements joined with commas. -/
def toJsStringList : List Json → String
  | [] => ""
  | [x] => toJsString x
  | x :: y :: rest => toJsString x ++ "," ++ toJsStringList (y :: rest)

end

/-- JSON whitespace. -/
def isJsonWs (c : Char) : Bool :=
  c = ' ' || c = '\t' || c = '\n' || c = '\r'

/-- Skip JSON whitespace. -/
def skipWsJson (cs : List Char) : List Char :=
  cs.dropWhile isJsonWs

/-- Unescape one JSON string escape character. -/
def jsonEscape : Char → Option Char
  | '"' => some '"'
  | '\\' => some '\\'
  | '/' => some '/'
  | 'b' => some (Char.ofNat 8)
  | 'f' => some (Char.ofNat 12)
  | 'n' => some '\n'
  | 'r' => some '\r'
  | 't' => some '\t'
  | _ => none

/-- Parse the body of a JSON string (after the opening quote), returning
the string and the remaining input. -/
def parseJsonStringBody (acc : List Char) : List Char →
    Except String (String × List Char)
  | [] => Except.error "unterminated string"
  | '"' :: rest => Except.ok (String.mk acc.reverse, rest)
  | '\\' :: 'u' :: h1 :: h2 :: h3 :: h4 :: rest =>
    if isHexDigit h1 && isHexDigit h2 && isHexDigit h3 && isHexDigit h4 then
      parseJsonStringBody
        (Char.ofNat (((hexVal h1 * 16 + hexVal h2) * 16 + hexVal h3) * 16 +
          hexVal h4) :: acc) rest
    else Except.error "bad unicode escape"
  | '\\' :: c :: rest =>
    match jsonEscape c with
    | some e => parseJsonStringBody (e :: acc) rest
    | none => Except.error "bad escape"
  | c :: rest => parseJsonStringBody (c :: acc) rest

/-- Parse a JSON number (strict JSON grammar), returning its exact rational
value and the remaining input. -/
def parseJsonNumber (cs : List Char) : Except String (ℚ × List Char) :=
  let (neg, cs) :=
    match cs with
    | '-' :: rest => (true, rest)
    | _ => (false, cs)
  match cs with
  | '0' :: rest =>
    if (rest.headD ' ').isDigit then Except.error "leading zero"
    else finish neg 0 rest
  | c :: _ =>
    if c.isDigit then
      finish neg (natOfDigits (cs.takeWhile Char.isDigit))
        (cs.dropWhile Char.isDigit)
    else Except.error "expected number"
  | [] => Except.error "expected number"
where
  finish (neg : Bool) (ip : ℕ) (cs : List Char) :
      Except String (ℚ × List Char) :=
    let (frac, cs1) :=
      match cs with
      | '.' :: rest => (some (rest.takeWhile Char.isDigit),
          rest.dropWhile Char.isDigit)
      | _ => (none, cs)
    match frac with
    | some [] => Except.error "expected fraction digits"
    | _ =>
      let fp := frac.getD []
      let mant : ℚ := (ip : ℚ) + (natOfDigits fp : ℚ) / (10 : ℚ) ^ fp.length
      match cs1 with
      | 'e' :: rest => withExp neg mant rest
      | 'E' :: rest => withExp neg mant rest
      | _ => Except.ok ((if neg then -mant else mant), cs1)
  withExp (neg : Bool) (mant : ℚ) (rest : List Char) :
      Except String (ℚ × List Char) :=
    let (esgn, rest) :=
      match rest with
      | '-' :: r => (true, r)
      | '+' :: r => (false, r)
      | r => (false, r)
    let ds := rest.takeWhile Char.isDigit
    if ds.isEmpty then Except.error "expected exponent digits"
    else
      let e : ℤ := (if esgn then -1 else 1) * (natOfDigits ds : ℤ)
      Except.ok ((if neg then -(mant * (10 : ℚ) ^ e) else mant * (10 : ℚ) ^ e),
        rest.dropWhile Char.isDigit)

/-- Insert a field into an object's field list: a duplicate key keeps its
first position but takes the later value, as in `JSON.parse`. -/
def jsonObjInsert (fs : List (String × Json)) (k : String) (v : Json) :
    List (String × Json) :=
  match fs with
  | [] => [(k, v)]
  | (k', v') :: rest =>
    if k' = k then (k', v) :: rest else (k', v') :: jsonObjInsert rest k v

mutual

/-- Recursive-descent JSON value parser; the fuel bounds nesting depth and
is instantiated at input length + 1, which no input can exhaust. -/
def parseJsonValue : ℕ → List Char → Except String (Json × List Char)
  | 0, _ => Except.error "input too deep"
  | fuel + 1, cs =>
    match skipWsJson cs with
    | 'n' :: 'u' :: 'l' :: 'l' :: rest => Except.ok (Json.null, rest)
    | 't' :: 'r' :: 'u' :: 'e' :: rest => Except.ok (Json.bool true, rest)
    | 'f' :: 'a' :: 'l' :: 's' :: 'e' :: rest => Except.ok (Json.bool false, rest)
    | '"' :: rest =>
      match parseJsonStringBody [] rest with
      | Except.ok (s, r) => Except.ok (Json.str s, r)
      | Except.error e => Except.error e
    | '[' :: rest =>
      match skipWsJson rest with
      | ']' :: r => Except.ok (Json.arr [], r)
      | r =>
        match parseJsonArrayItems fuel r with
        | Except.ok (xs, r') => Except.ok (Json.arr xs, r')
        | Except.error e => Except.error e
    | '\x7b' :: rest =>
      match skipWsJson rest with
      | '\x7d' :: r => Except.ok (Json.obj [], r)
      | r =>
        match parseJsonObjectFields fuel r with
        | Except.ok (ps, r') =>
          Except.ok (Json.obj (ps.foldl (fun a p => jsonObjInsert a p.1 p.2) []), r')
        | Except.error e => Except.error e
    | cs' =>
      match parseJsonNumber cs' with
      | Except.ok (q, r) => Except.ok (Json.num q, r)
      | Except.error e => Except.error e

/-- Parse the items of a non-empty JSON array up to the closing bracket. -/
def parseJsonArrayItems : ℕ → List Char → Except String (List Json × List Char)
  | 0, _ => Except.error "input too deep"
  | fuel + 1, cs =>
    match parseJsonValue fuel cs with
    | Except.error e => Except.error e
    | Except.ok (v, r) =>
      match skipWsJson r with
      | ',' :: r' =>
        match parseJsonArrayItems fuel r' with
        | Except.ok (vs, r'') => Except.ok (v :: vs, r'')
        | Except.error e => Except.error e
      | ']' :: r' => Except.ok ([v], r')
      | _ => Except.error "expected comma or close bracket"

/-- Parse the fields of a non-empty JSON object up to the closing brace. -/
def parseJsonObjectFields : ℕ → List Char →
    Except String (List (String × Json) × List Char)
  | 0, _ => Except.error "input too deep"
  | fuel + 1, cs =>
    match skipWsJson cs with
    | '"' :: rest =>
      match parseJsonStringBody [] rest with
      | Except.error e => Except.error e
      | Except.ok (k, r) =>
        match skipWsJson r with
        | ':' :: r' =>
          match parseJsonValue fuel r' with
          | Except.error e => Except.error e
          | Except.ok (v, r'') =>
            match skipWsJson r'' with
            | ',' :: r3 =>
              match parseJsonObjectFields fuel r3 with
              | Except.ok (ps, r4) => Except.ok ((k, v) :: ps, r4)
              | Except.error e => Except.error e
            | '\x7d' :: r3 => Except.ok ([(k, v)], r3)
            | _ => Except.error "expected comma or close brace"
        | _ => Except.error "expected colon"
    | _ => Except.error "expected key"

end

/-- Model of `JSON.parse`: parse one value, allow trailing whitespace only;
`error` models a thrown `SyntaxError`. -/
def jsonParse (s : String) : Except String Json :=
  match parseJsonValue (s.length + 1) s.toList with
  | Except.ok (j, rest) =>
    if (skipWsJson rest).isEmpty then Except.ok j
    else Except.error "unexpected trailing characters"
  | Except.error e => Except.error e

/-!
## Normalized request records and the access-log parser (metricsService.ts)

`RequestLogEntry` keeps the fields the embedded code reads or writes.  The
raw fields (`timestamp`, `requestId`, `method`, `path`, …) hold whatever
JS value the `||`-chains produce, so they are `Json`; the parsed fields
(`statusCode`, `responseTime`) are numbers; `decision` is the
`accept`/`reject` string.  `policyType`/`policyDecisions` are the optional
policy-enforcement fields of the interface; the log parser never sets them.
-/

/-- One policy-enforcement verdict attached to a request (the fields the
dashboard reads). -/
structure PolicyDecision where
  policyType : String
  decision : String
  enforcementPoint : String

/-- Normalized request record. -/
structure RequestLogEntry where
  timestamp : Json
  requestId : Json
  method : Json
  path : Json
  statusCode : JsNum
  responseTime : JsNum
  sourceIP : Option Json
  userAgent : Option Json
  decision : String
  headers : Option Json
  policyType : Option String
  policyDecisions : Option (List PolicyDecision)

/-- `transformLogEntry` (metricsService.ts) on a parsed log object.
`nowIso` models `new Date().toISOString()`, `nowMs` models `Date.now()`.
Every operation in the `try` body is total on a parsed object, so the
`catch → null` branch is unreachable and the result is always a record. -/
def transformLogEntry (j : Json) (nowIso : String) (nowMs : ℕ) :
    Option RequestLogEntry :=
  some
    { timestamp := jsOrJ (jget j "timestamp")
        (jsOrJ (jget j "time") (Json.str nowIso))
      requestId := jsOrJ (jget j "request_id")
        (jsOrJ (jget j "requestId") (Json.str ("req-" ++ toString nowMs)))
      method := jsOrJ (jget j "method") (Json.str "GET")
      path := jsOrJ (jget j "path") (jsOrJ (jget j "url") (Json.str "/"))
      statusCode := parseIntJS (toJsString
        (jsOrJ (jget j "status_code")
          (jsOrJ (jget j "status") (Json.str "200"))))
      responseTime := parseFloatJS (toJsString
        (jsOrJ (jget j "response_time")
          (jsOrJ (jget j "duration") (Json.str "0"))))
      sourceIP := jsOrOpt (jget j "source_ip") (jget j "remote_addr")
      userAgent := jget j "user_agent"
      decision :=
        if truthyOpt (jget j "status_code") &&
            (parseIntJS (toJsString ((jget j "status_code").getD Json.null))).ltB
              400
        then "accept" else "reject"
      headers := jget j "headers"
      policyType := none
      policyDecisions := none }

/-- The regex match `line.match(/\x7b.*\x7d/)`: the substring from the
first opening brace to the last closing brace after it, if any. -/
def extractJsonMatch (line : String) : Option String :=
  let cs := line.toList
  match cs.dropWhile (fun c => c ≠ '\x7b') with
  | [] => none
  | b :: after =>
    let revTail := after.reverse.dropWhile (fun c => c ≠ '\x7d')
    if revTail.isEmpty then none
    else some (String.mk (b :: revTail.reverse))

/-- Non-whitespace character (`\S` in the common-log-format regex). -/
def notWs (c : Char) : Bool := !(isJsWs c)

/-- Tail of the common-log-format match after the closing `]`: expects
`" METHOD path PROTOCOL" status size` and builds the record.  The third
quoted token is a maximal `\S+` run that must end in the closing quote,
exactly as the backtracking regex resolves it. -/
def clfTail (cs : List Char) (nowIso : String) (nowMs : ℕ) (rand : String)
    (sourceIP : String) : Option RequestLogEntry :=
  match cs with
  | ' ' :: '"' :: cs1 =>
    let method := cs1.takeWhile notWs
    let cs2 := cs1.dropWhile notWs
    if method.isEmpty then none else
    match cs2 with
    | ' ' :: cs3 =>
      let path := cs3.takeWhile notWs
      let cs4 := cs3.dropWhile notWs
      if path.isEmpty then none else
      match cs4 with
      | ' ' :: cs5 =>
        let proto := cs5.takeWhile notWs
        let cs6 := cs5.dropWhile notWs
        if proto.length < 2 || proto.getLast? ≠ some '"' then none else
        match cs6 with
        | ' ' :: cs7 =>
          let status := cs7.takeWhile Char.isDigit
          let cs8 := cs7.dropWhile Char.isDigit
          if status.isEmpty then none else
          match cs8 with
          | ' ' :: cs9 =>
            let size := cs9.takeWhile Char.isDigit
            if size.isEmpty && cs9.headD ' ' ≠ '-' then none
            else
              let statusStr := String.mk status
              some
                { timestamp := Json.str nowIso
                  requestId := Json.str
                    ("req-" ++ toString nowMs ++ "-" ++ rand)
                  method := Json.str (String.mk method)
                  path := Json.str (String.mk path)
                  statusCode := parseIntJS statusStr
                  responseTime := JsNum.val 0
                  sourceIP := some (Json.str sourceIP)
                  userAgent := none
                  decision :=
                    if (parseIntJS statusStr).ltB 400 then "accept"
                    else "reject"
                  headers := none
                  policyType := none
                  policyDecisions := none }
          | _ => none
        | _ => none
      | _ => none
    | _ => none
  | _ => none

/-- The lazy `\[(.*?)\]` group with regex backtracking: try each `]`
position left to right until the tail of the pattern matches.  (The
captured timestamp group is not used by the record the code builds.) -/
def clfScan (nowIso : String) (nowMs : ℕ) (rand : String)
    (sourceIP : String) : List Char → Option RequestLogEntry
  | [] => none
  | c :: rest =>
    if c = ']' then
      match clfTail rest nowIso nowMs rand sourceIP with
      | some e => some e
      | none => clfScan nowIso nowMs rand sourceIP rest
    else clfScan nowIso nowMs rand sourceIP rest

/-- `parseCommonLogFormat` (metricsService.ts): match
`^(\S+) \S+ \S+ \[(.*?)\] "(\S+) (\S+) \S+" (\d+) (\d+|-)` and build the
record; `rand` models the `Math.random()` request-id suffix. -/
def parseCommonLogFormat (line : String) (nowIso : String) (nowMs : ℕ)
    (rand : String) : Option RequestLogEntry :=
  let cs := line.toList
  let ip := cs.takeWhile notWs
  let cs1 := cs.dropWhile notWs
  if ip.isEmpty then none else
  match cs1 with
  | ' ' :: cs2 =>
    let t2 := cs2.takeWhile notWs
    let cs3 := cs2.dropWhile notWs
    if t2.isEmpty then none else
    match cs3 with
    | ' ' :: cs4 =>
      let t3 := cs4.takeWhile notWs
      let cs5 := cs4.dropWhile notWs
      if t3.isEmpty then none else
      match cs5 with
      | ' ' :: '[' :: cs6 =>
        clfScan nowIso nowMs rand (String.mk ip) cs6
      | _ => none
    | _ => none
  | _ => none

/-- One iteration of the `parseAccessLogs` line loop, before its
`try/catch`: `error` models a thrown exception (`JSON.parse` on an invalid
brace-delimited substring), `ok none` a line contributing no record. -/
def lineStepE (line : String) (nowIso : String) (nowMs : ℕ) (rand : String) :
    Except String (Option RequestLogEntry) :=
  if line.toList.contains '\x7b' && line.toList.contains '\x7d' then
    match extractJsonMatch line with
    | some jstr =>
      match jsonParse jstr with
      | Except.ok j => Except.ok (transformLogEntry j nowIso nowMs)
      | Except.error e => Except.error e
    | none => Except.ok none
  else Except.ok (parseCommonLogFormat line nowIso nowMs rand)

/-- `logs.split('\n')` on the character list (JS `String.split` with a
one-character separator). -/
def splitOnNl : List Char → List (List Char)
  | [] => [[]]
  | c :: rest =>
    if c = '\n' then [] :: splitOnNl rest
    else
      match splitOnNl rest with
      | [] => [[c]]
      | l :: ls => (c :: l) :: ls

/-- Truthiness of `line.trim()`: the line holds a non-whitespace character. -/
def hasContent (l : List Char) : Bool := l.any (fun c => !(isJsWs c))

/-- The non-blank lines of a log blob:
`logs.split('\n').filter(line => line.trim())`. -/
def nonBlankLines (logs : String) : List String :=
  ((splitOnNl logs.toList).map (fun cs => String.mk cs)).filter
    (fun l => hasContent l.toList)

/-- `parseAccessLogs` (metricsService.ts): process each non-blank line,
pushing the produced record if any; the `catch` swallows any per-line
exception, skipping the line. -/
def parseAccessLogs (logs : String) (nowIso : String) (nowMs : ℕ)
    (rand : String) : List RequestLogEntry :=
  (nonBlankLines logs).foldl
    (fun entries line =>
      match lineStepE line nowIso nowMs rand with
      | Except.ok (some e) => entries ++ [e]
      | Except.ok none => entries
      | Except.error _ => entries)
    []

/-- `getRealLiveRequests` (metricsService.ts), parameterized by the gateway
pod names (`pod.metadata?.name`, possibly absent) and by the log text
fetched per pod (`getPodLogs` catches its own errors and returns `''`, so
the per-pod fetch is total and the surrounding per-pod `catch` is
unreachable).  Pushes each pod's parsed records and returns
`requests.slice(0, 100)`. -/
def getRealLiveRequests (pods : List (Option String))
    (logsOf : String → String) (nowIso : String) (nowMs : ℕ)
    (rand : String) : List RequestLogEntry :=
  ((pods.map (fun name =>
    parseAccessLogs (logsOf (jsOrStr name "")) nowIso nowMs rand)).flatten).take
    100

/-!
## C6, C9, C5: properties of the log pipeline
-/

theorem foldl_pushes (g : String → Option RequestLogEntry) :
    ∀ (ls : List String) (acc : List RequestLogEntry),
      ls.foldl
        (fun es l => match g l with
          | some e => es ++ [e]
          | none => es) acc = acc ++ ls.filterMap g := by
  intro ls
  induction ls with
  | nil => intro acc; simp
  | cons l rest ih =>
    intro acc
    simp only [List.foldl_cons, List.filterMap_cons]
    cases h : g l with
    | none => simp [h, ih acc]
    | some e => simp [h, ih (acc ++ [e])]

/-- The line contribution after the `catch`: a thrown per-line exception
contributes nothing. -/
def lineContribution (nowIso : String) (nowMs : ℕ) (rand : String)
    (l : String) : Option RequestLogEntry :=
  match lineStepE l nowIso nowMs rand with
  | Except.ok r => r
  | Except.error _ => none

/-- C6. `parseAccessLogs` is total (never throws: each per-line exception is
caught) and equals the per-line `filterMap` of the non-blank lines, so each
malformed line — unbalanced braces, invalid JSON, or text matching neither
format — contributes no record and no partial record; in particular a blob
of three such malformed lines yields `[]`. -/
theorem parseAccessLogs_total_and_drops
    (logs nowIso rand : String) (nowMs : ℕ) :
    parseAccessLogs logs nowIso nowMs rand =
      (nonBlankLines logs).filterMap (lineContribution nowIso nowMs rand) ∧
    (parseAccessLogs logs nowIso nowMs rand).length ≤
      (nonBlankLines logs).length ∧
    parseAccessLogs "\x7bnot json\x7d\nplain garbage\n\x7bunbalanced"
      nowIso nowMs rand = [] := by
  have hmain : ∀ (logs' : String),
      parseAccessLogs logs' nowIso nowMs rand =
        (nonBlankLines logs').filterMap (lineContribution nowIso nowMs rand) := by
    intro logs'
    have hstep : (fun (es : List RequestLogEntry) (l : String) =>
        match lineStepE l nowIso nowMs rand with
        | Except.ok (some e) => es ++ [e]
        | Except.ok none => es
        | Except.error _ => es) =
        (fun es l => match lineContribution nowIso nowMs rand l with
          | some e => es ++ [e]
          | none => es) := by
      funext es l
      unfold lineContribution
      cases h : lineStepE l nowIso nowMs rand with
      | ok r => cases r <;> simp [h]
      | error e => simp [h]
    show (nonBlankLines logs').foldl _ [] = _
    rw [hstep, foldl_pushes, List.nil_append]
  refine ⟨hmain logs, ?_, ?_⟩
  · rw [hmain logs]
    exact List.length_filterMap_le _ _
  · rfl

/-- C9. `getRealLiveRequests` returns at most 100 records, whatever pods
are found and whatever each pod's logs contain. -/
theorem getRealLiveRequests_capped (pods : List (Option String))
    (logsOf : String → String) (nowIso rand : String) (nowMs : ℕ) :
    (getRealLiveRequests pods logsOf nowIso nowMs rand).length ≤ 100 := by
  show ((_ : List RequestLogEntry).take 100).length ≤ 100
  rw [List.length_take]
  exact min_le_left _ _

/-- C5 (code evaluation at the failing input): the JSON log line with only
the `status` alias, value `"200"`, produces a record whose normalized
`statusCode` is 200 (< 400) but whose `decision` is `"reject"`, because the
decision inspects only the raw `status_code` field. -/
theorem status_alias_line_rejected :
    ∃ e, parseAccessLogs "\x7b\"status\": \"200\"\x7d"
        "2024-01-01T00:00:00.000Z" 0 "r0" = [e] ∧
      e.statusCode = JsNum.val 200 ∧ e.decision = "reject" := by
  refine ⟨_, rfl, ?_, rfl⟩
  show parseIntJS "200" = JsNum.val 200
  simp [parseIntJS, readSign, natOfDigits, digitVal, isJsWs]

/-!
## The `GET /dashboard` handler (routes/metrics.ts)

The handler settles three fetches independently
(`Promise.allSettled`): the Prometheus aggregate (null when
`fetchPrometheusMetrics` caught an error), the live-request list and the
status record.  It then picks the count source and builds the response
`data` object.  Only the count fields, the `source` tag and the
`kuadrantStatus` source tags are modelled; the remaining response fields
(`authorinoStats`, timestamps, debug info) do not bear on the claims.
-/

/-- The count/source portion of the dashboard response `data` object. -/
structure DashboardData where
  totalRequests : JsNum
  acceptedRequests : JsNum
  rejectedRequests : JsNum
  authFailedRequests : JsNum
  rateLimitedRequests : JsNum
  policyEnforcedRequests : JsNum
  source : String
  istioConnected : Bool
  kuadrantMetricsSource : String
  kuadrantDataSource : String
  realData : Bool

/-- The response `data` object literal, given the five counts and
`dataSource`.  The literal assigns the `source` key twice — `source:
dataSource` among the counts and `source: 'prometheus-metrics'` as its last
property — and at runtime the later duplicate key wins, so the `source`
field is the constant string. -/
def mkDashboardData (totalRequests acceptedRequests rejectedRequests
    authFailedRequests rateLimitedRequests : JsNum) (dataSource : String) :
    DashboardData :=
  { totalRequests := totalRequests
    acceptedRequests := acceptedRequests
    rejectedRequests := rejectedRequests
    authFailedRequests := authFailedRequests
    rateLimitedRequests := rateLimitedRequests
    policyEnforcedRequests := authFailedRequests.add rateLimitedRequests
    source := "prometheus-metrics"
    istioConnected := dataSource = "prometheus-metrics"
    kuadrantMetricsSource := dataSource
    kuadrantDataSource := dataSource
    realData := totalRequests.gtB 0 }

/-- The fallback auth-failure count predicate:
`r.policyType === 'AuthPolicy' ||
 r.policyDecisions?.some(p => p.policyType === 'AuthPolicy' && p.decision === 'deny')`. -/
def entryAuthDenied (r : RequestLogEntry) : Bool :=
  r.policyType = some "AuthPolicy" ||
    (match r.policyDecisions with
     | some l => l.any (fun p => p.policyType = "AuthPolicy" &&
         p.decision = "deny")
     | none => false)

/-- The fallback rate-limited count predicate, analogous. -/
def entryRateLimited (r : RequestLogEntry) : Bool :=
  r.policyType = some "RateLimitPolicy" ||
    (match r.policyDecisions with
     | some l => l.any (fun p => p.policyType = "RateLimitPolicy" &&
         p.decision = "deny")
     | none => false)

/-- The live-requests fallback branch of the dashboard handler: the five
counts derive from the live-request list and `dataSource` is
`'live-requests-fallback'`. -/
def dashboardFallback (liveRequests : List RequestLogEntry) : DashboardData :=
  let totalRequests := JsNum.val (liveRequests.length : ℚ)
  let acceptedRequests := JsNum.val
    ((liveRequests.filter (fun r => r.decision = "accept")).length : ℚ)
  let rejectedRequests := JsNum.val
    ((liveRequests.filter (fun r => r.decision = "reject")).length : ℚ)
  let authFailedRequests := JsNum.val
    ((liveRequests.filter entryAuthDenied).length : ℚ)
  let rateLimitedRequests := JsNum.val
    ((liveRequests.filter entryRateLimited).length : ℚ)
  mkDashboardData totalRequests acceptedRequests rejectedRequests
    authFailedRequests rateLimitedRequests "live-requests-fallback"

/-- The count selection of the dashboard handler:
`if (prometheusMetrics && prometheusMetrics.totalRequests > 0)` use the
Prometheus aggregate (with `rejected = total - accepted`), else fall back
to the live-request-derived counts. -/
def dashboardData (prometheusMetrics : Option PromAgg)
    (liveRequests : List RequestLogEntry) : DashboardData :=
  match prometheusMetrics with
  | some p =>
    if p.totalRequests.gtB 0 then
      let totalRequests := p.totalRequests
      let acceptedRequests := p.successRequests
      let authFailedRequests := p.authFailedRequests
      let rateLimitedRequests := p.rateLimitedRequests
      let rejectedRequests := totalRequests.sub acceptedRequests
      mkDashboardData totalRequests acceptedRequests rejectedRequests
        authFailedRequests rateLimitedRequests "prometheus-metrics"
    else dashboardFallback liveRequests
  | none => dashboardFallback liveRequests

/-- A live-request record with decision `accept`. -/
def acceptEntry : RequestLogEntry :=
  { timestamp := Json.str "2024-01-01T00:00:00.000Z"
    requestId := Json.str "req-1"
    method := Json.str "GET"
    path := Json.str "/"
    statusCode := JsNum.val 200
    responseTime := JsNum.val 10
    sourceIP := none
    userAgent := none
    decision := "accept"
    headers := none
    policyType := none
    policyDecisions := none }

/-- A live-request record with decision `reject`. -/
def rejectEntry : RequestLogEntry :=
  { timestamp := Json.str "2024-01-01T00:00:01.000Z"
    requestId := Json.str "req-2"
    method := Json.str "POST"
    path := Json.str "/"
    statusCode := JsNum.val 401
    responseTime := JsNum.val 5
    sourceIP := none
    userAgent := none
    decision := "reject"
    headers := none
    policyType := none
    policyDecisions := none }

/-- A Prometheus aggregate whose `totalRequests` is 0. -/
def zeroAgg : PromAgg :=
  { totalRequests := JsNum.val 0
    successRequests := JsNum.val 0
    authFailedRequests := JsNum.val 0
    rateLimitedRequests := JsNum.val 0
    authByNamespace := []
    limitsByNamespace := [] }

/-- C1 (code evaluation at the failing input): with no Prometheus metrics
object (and likewise with one whose `totalRequests` is 0), the dashboard
derives the counts from the live-request list as claimed, and the
`kuadrantStatus` tags say `live-requests-fallback` — but the `data`
object's own `source` field is `"prometheus-metrics"`, because the
response literal assigns `source` twice and the later constant wins. -/
theorem dashboard_fallback_source_overwritten :
    (dashboardData none [acceptEntry, rejectEntry]).totalRequests =
      JsNum.val 2 ∧
    (dashboardData none [acceptEntry, rejectEntry]).acceptedRequests =
      JsNum.val 1 ∧
    (dashboardData none [acceptEntry, rejectEntry]).rejectedRequests =
      JsNum.val 1 ∧
    (dashboardData none [acceptEntry, rejectEntry]).kuadrantDataSource =
      "live-requests-fallback" ∧
    (dashboardData none [acceptEntry, rejectEntry]).kuadrantMetricsSource =
      "live-requests-fallback" ∧
    (dashboardData none [acceptEntry, rejectEntry]).source =
      "prometheus-metrics" ∧
    dashboardData (some zeroAgg) [acceptEntry, rejectEntry] =
      dashboardData none [acceptEntry, rejectEntry] ∧
    "prometheus-metrics" ≠ "live-requests-fallback" := by
  refine ⟨?_, ?_, ?_, rfl, rfl, rfl, ?_, by decide⟩
  · show JsNum.val ((2 : ℕ) : ℚ) = JsNum.val 2
    norm_num
  · show JsNum.val ((1 : ℕ) : ℚ) = JsNum.val 1
    norm_num
  · show JsNum.val ((1 : ℕ) : ℚ) = JsNum.val 1
    norm_num
  · show dashboardFallback _ = dashboardFallback _
    rfl

/-!
## Kuadrant policy listing (kuadrantService.ts)

Each `get*Policies` method lists a custom resource namespace-scoped first
and, only if that throws, cluster-scoped once.  The Kubernetes client is a
parameter mapping a request descriptor to `ok items?` (the `.items` member
may be absent) or a thrown error; each method also returns the list of API
requests it performed, in order.
-/

/-- Scope of a custom-object list request. -/
inductive K8sScope where
  | namespaced (ns : String) : K8sScope
  | cluster : K8sScope
deriving DecidableEq

/-- A custom-object list request descriptor: scope, API group, version and
resource plural. -/
structure ApiReq where
  scope : K8sScope
  group : String
  version : String
  plural : String
deriving DecidableEq

/-- One status condition of a policy object (the fields the code reads). -/
structure RawCondition where
  type : String
  status : String
  reason : String
  message : String
  lastTransitionTime : String

/-- The `status` member of a raw policy object. -/
structure RawStatus where
  conditions : Option (List RawCondition)

/-- The `metadata` member of a raw policy object (`namespace` is a Lean
keyword, hence `nsName`). -/
structure RawMeta where
  name : Option String
  nsName : Option String
  creationTimestamp : Option String
  resourceVersion : Option String

/-- A raw policy custom object as returned by the Kubernetes API. -/
structure RawPolicy where
  metadata : Option RawMeta
  spec : Option Json
  status : Option RawStatus

/-- A flattened sub-rule for display. -/
structure PolicyItem where
  id : String
  type : String
  config : Json

/-- The normalized policy view (`namespace` is a Lean keyword, hence
`nsName`). -/
structure KuadrantPolicy where
  id : String
  name : String
  description : Json
  type : String
  nsName : String
  targetRef : Json
  config : Json
  statusConditions : List RawCondition
  created : String
  modified : String
  isActive : Bool
  items : List PolicyItem

/-- Template-literal coercion of a possibly-`undefined` string:
`undefined` prints as `"undefined"`. -/
def strOrUndefined (o : Option String) : String := o.getD "undefined"

/-- Optional-chained property access. -/
def jgetOpt (o : Option Json) (k : String) : Option Json :=
  o.bind (fun j => jget j k)

/-- `Object.entries` of a JSON value: fields of an object, indexed elements
of an array or string, empty otherwise. -/
def jsEntries : Json → List (String × Json)
  | Json.obj fs => fs
  | Json.arr xs => xs.enum.map (fun p => (toString p.1, p.2))
  | Json.str s => s.toList.enum.map
      (fun p => (toString p.1, Json.str (String.mk [p.2])))
  | _ => []

/-- `isPolicyActive` (kuadrantService.ts): some `Ready`/`True` condition,
or no conditions at all (newly created). -/
def isPolicyActive (p : RawPolicy) : Bool :=
  let conditions := (p.status.bind (fun s => s.conditions)).getD []
  conditions.any (fun c => c.type = "Ready" && c.status = "True") ||
    conditions.isEmpty

/-- `${policy.spec?.targetRef?.name || 'unknown target'}`. -/
def targetRefName (spec : Option Json) : String :=
  match jgetOpt (jgetOpt spec "targetRef") "name" with
  | some j => if j.truthy then toJsString j else "unknown target"
  | none => "unknown target"

/-- `extractAuthPolicyItems` (kuadrantService.ts): flatten the
`rules.authentication`/`authorization`/`response` sections. -/
def extractAuthPolicyItems (spec : Option Json) : List PolicyItem :=
  let rules := jgetOpt spec "rules"
  let sec := fun (k idPre ty : String) =>
    match jgetOpt rules k with
    | some v => if v.truthy then
        (jsEntries v).map (fun p => ⟨idPre ++ p.1, ty, p.2⟩)
      else []
    | none => []
  sec "authentication" "auth-" "authentication" ++
    sec "authorization" "authz-" "authorization" ++
    sec "response" "response-" "response"

/-- `extractRateLimitPolicyItems` (kuadrantService.ts). -/
def extractRateLimitPolicyItems (spec : Option Json) : List PolicyItem :=
  match jgetOpt spec "limits" with
  | some v => if v.truthy then
      (jsEntries v).map (fun p => ⟨"limit-" ++ p.1, "rate-limit", p.2⟩)
    else []
  | none => []

/-- `extractTokenRateLimitPolicyItems` (kuadrantService.ts): iterate the
`rateLimits` array.  (A truthy non-array `rateLimits` would make `forEach`
throw; CRD-validated objects always carry an array there, so that branch is
collapsed to `[]`.) -/
def extractTokenRateLimitPolicyItems (spec : Option Json) : List PolicyItem :=
  match jgetOpt spec "rateLimits" with
  | some (Json.arr xs) => xs.enum.map
      (fun p => ⟨"token-limit-" ++ toString p.1, "token-rate-limit", p.2⟩)
  | _ => []

/-- `transformAuthPolicy` (kuadrantService.ts). -/
def transformAuthPolicy (p : RawPolicy) (now : String) : KuadrantPolicy :=
  { id := strOrUndefined (p.metadata.bind (fun m => m.nsName)) ++ "/" ++
      strOrUndefined (p.metadata.bind (fun m => m.name))
    name := jsOrStr (p.metadata.bind (fun m => m.name)) "Unknown"
    description := jsOrJ (jgetOpt p.spec "description")
      (Json.str ("AuthPolicy for " ++ targetRefName p.spec))
    type := "auth"
    nsName := jsOrStr (p.metadata.bind (fun m => m.nsName)) "default"
    targetRef := jsOrJ (jgetOpt p.spec "targetRef") (Json.obj [])
    config := jsOrJ p.spec (Json.obj [])
    statusConditions := (p.status.bind (fun s => s.conditions)).getD []
    created := jsOrStr (p.metadata.bind (fun m => m.creationTimestamp)) now
    modified := jsOrStr (p.metadata.bind (fun m => m.resourceVersion)) now
    isActive := isPolicyActive p
    items := extractAuthPolicyItems p.spec }

/-- `transformRateLimitPolicy` (kuadrantService.ts). -/
def transformRateLimitPolicy (p : RawPolicy) (now : String) : KuadrantPolicy :=
  { id := strOrUndefined (p.metadata.bind (fun m => m.nsName)) ++ "/" ++
      strOrUndefined (p.metadata.bind (fun m => m.name))
    name := jsOrStr (p.metadata.bind (fun m => m.name)) "Unknown"
    description := jsOrJ (jgetOpt p.spec "description")
      (Json.str ("RateLimitPolicy for " ++ targetRefName p.spec))
    type := "rateLimit"
    nsName := jsOrStr (p.metadata.bind (fun m => m.nsName)) "default"
    targetRef := jsOrJ (jgetOpt p.spec "targetRef") (Json.obj [])
    config := jsOrJ p.spec (Json.obj [])
    statusConditions := (p.status.bind (fun s => s.conditions)).getD []
    created := jsOrStr (p.metadata.bind (fun m => m.creationTimestamp)) now
    modified := jsOrStr (p.metadata.bind (fun m => m.resourceVersion)) now
    isActive := isPolicyActive p
    items := extractRateLimitPolicyItems p.spec }

/-- `transformTokenRateLimitPolicy` (kuadrantService.ts). -/
def transformTokenRateLimitPolicy (p : RawPolicy) (now : String) :
    KuadrantPolicy :=
  { id := strOrUndefined (p.metadata.bind (fun m => m.nsName)) ++ "/" ++
      strOrUndefined (p.metadata.bind (fun m => m.name))
    name := jsOrStr (p.metadata.bind (fun m => m.name)) "Unknown"
    description := jsOrJ (jgetOpt p.spec "description")
      (Json.str ("TokenRateLimitPolicy for " ++ targetRefName p.spec))
    type := "rateLimit"
    nsName := jsOrStr (p.metadata.bind (fun m => m.nsName)) "default"
    targetRef := jsOrJ (jgetOpt p.spec "targetRef") (Json.obj [])
    config := jsOrJ p.spec (Json.obj [])
    statusConditions := (p.status.bind (fun s => s.conditions)).getD []
    created := jsOrStr (p.metadata.bind (fun m => m.creationTimestamp)) now
    modified := jsOrStr (p.metadata.bind (fun m => m.resourceVersion)) now
    isActive := isPolicyActive p
    items := extractTokenRateLimitPolicyItems p.spec }

/-- `process.env.NAMESPACE || 'llm'`. -/
def currentNamespace (nsEnv : Option String) : String := jsOrStr nsEnv "llm"

/-- The namespace-scoped AuthPolicy list request. -/
def authPoliciesNsReq (ns : String) : ApiReq :=
  ⟨K8sScope.namespaced ns, "kuadrant.io", "v1", "authpolicies"⟩

/-- The cluster-scoped AuthPolicy list request. -/
def authPoliciesClusterReq : ApiReq :=
  ⟨K8sScope.cluster, "kuadrant.io", "v1", "authpolicies"⟩

/-- The namespace-scoped RateLimitPolicy list request. -/
def rlpNsReq (ns : String) : ApiReq :=
  ⟨K8sScope.namespaced ns, "kuadrant.io", "v1beta2", "ratelimitpolicies"⟩

/-- The cluster-scoped RateLimitPolicy list request. -/
def rlpClusterReq : ApiReq :=
  ⟨K8sScope.cluster, "kuadrant.io", "v1beta2", "ratelimitpolicies"⟩

/-- The namespace-scoped TokenRateLimitPolicy list request. -/
def trlpNsReq (ns : String) : ApiReq :=
  ⟨K8sScope.namespaced ns, "kuadrant.io", "v1beta1", "tokenratelimitpolicies"⟩

/-- The cluster-scoped TokenRateLimitPolicy list request. -/
def trlpClusterReq : ApiReq :=
  ⟨K8sScope.cluster, "kuadrant.io", "v1beta1", "tokenratelimitpolicies"⟩

/-- The shared namespace-then-cluster shape of the three `get*Policies`
methods, given the two request descriptors and the transform: list
namespace-scoped; on a thrown error list cluster-scoped once; on a second
error return `[]` (logged).  `(response.body as any).items || []` is the
`Option.getD []`.  The outer `try/catch` (returning `[]`) is unreachable:
the transform is total.  Also returns the requests performed, in order. -/
def listPolicies (api : ApiReq → Except String (Option (List RawPolicy)))
    (nsReq clusterReq : ApiReq)
    (transform : RawPolicy → String → KuadrantPolicy) (now : String) :
    List KuadrantPolicy × List ApiReq :=
  match api nsReq with
  | Except.ok body =>
    ((body.getD []).map (fun p => transform p now), [nsReq])
  | Except.error _ =>
    match api clusterReq with
    | Except.ok body =>
      ((body.getD []).map (fun p => transform p now), [nsReq, clusterReq])
    | Except.error _ => ([], [nsReq, clusterReq])

/-- `getAuthPolicies` (kuadrantService.ts). -/
def getAuthPolicies (api : ApiReq → Except String (Option (List RawPolicy)))
    (nsEnv : Option String) (now : String) :
    List KuadrantPolicy × List ApiReq :=
  listPolicies api (authPoliciesNsReq (currentNamespace nsEnv))
    authPoliciesClusterReq transformAuthPolicy now

/-- `getRateLimitPolicies` (kuadrantService.ts). -/
def getRateLimitPolicies
    (api : ApiReq → Except String (Option (List RawPolicy)))
    (nsEnv : Option String) (now : String) :
    List KuadrantPolicy × List ApiReq :=
  listPolicies api (rlpNsReq (currentNamespace nsEnv)) rlpClusterReq
    transformRateLimitPolicy now

/-- `getTokenRateLimitPolicies` (kuadrantService.ts). -/
def getTokenRateLimitPolicies
    (api : ApiReq → Except String (Option (List RawPolicy)))
    (nsEnv : Option String) (now : String) :
    List KuadrantPolicy × List ApiReq :=
  listPolicies api (trlpNsReq (currentNamespace nsEnv)) trlpClusterReq
    transformTokenRateLimitPolicy now

theorem listPolicies_fallback
    (api : ApiReq → Except String (Option (List RawPolicy)))
    (nsReq clusterReq : ApiReq)
    (transform : RawPolicy → String → KuadrantPolicy) (now : String) :
    (∀ e, api nsReq = Except.error e →
      (listPolicies api nsReq clusterReq transform now).2 =
        [nsReq, clusterReq] ∧
      (∀ e', api clusterReq = Except.error e' →
        (listPolicies api nsReq clusterReq transform now).1 = [])) ∧
    (∀ b, api nsReq = Except.ok b →
      (listPolicies api nsReq clusterReq transform now).2 = [nsReq]) := by
  constructor
  · intro e he
    constructor
    · unfold listPolicies
      rw [he]
      cases h : api clusterReq <;> rfl
    · intro e' he'
      unfold listPolicies
      rw [he, he']
  · intro b hb
    unfold listPolicies
    rw [hb]

/-- C8. For each of the three policy kinds: a failed namespace-scoped list
performs exactly one further request, the cluster-scoped list of the same
group/version/plural; if that also fails the method returns an empty policy
list; a successful namespace-scoped list performs no cluster-scoped
request. -/
theorem policies_namespace_then_cluster_fallback
    (api : ApiReq → Except String (Option (List RawPolicy)))
    (nsEnv : Option String) (now : String) :
    ((∀ e, api (authPoliciesNsReq (currentNamespace nsEnv)) =
        Except.error e →
      (getAuthPolicies api nsEnv now).2 =
        [authPoliciesNsReq (currentNamespace nsEnv),
         authPoliciesClusterReq] ∧
      (∀ e', api authPoliciesClusterReq = Except.error e' →
        (getAuthPolicies api nsEnv now).1 = [])) ∧
     (∀ b, api (authPoliciesNsReq (currentNamespace nsEnv)) = Except.ok b →
      (getAuthPolicies api nsEnv now).2 =
        [authPoliciesNsReq (currentNamespace nsEnv)])) ∧
    ((∀ e, api (rlpNsReq (currentNamespace nsEnv)) = Except.error e →
      (getRateLimitPolicies api nsEnv now).2 =
        [rlpNsReq (currentNamespace nsEnv), rlpClusterReq] ∧
      (∀ e', api rlpClusterReq = Except.error e' →
        (getRateLimitPolicies api nsEnv now).1 = [])) ∧
     (∀ b, api (rlpNsReq (currentNamespace nsEnv)) = Except.ok b →
      (getRateLimitPolicies api nsEnv now).2 =
        [rlpNsReq (currentNamespace nsEnv)])) ∧
    ((∀ e, api (trlpNsReq (currentNamespace nsEnv)) = Except.error e →
      (getTokenRateLimitPolicies api nsEnv now).2 =
        [trlpNsReq (currentNamespace nsEnv), trlpClusterReq] ∧
      (∀ e', api trlpClusterReq = Except.error e' →
        (getTokenRateLimitPolicies api nsEnv now).1 = [])) ∧
     (∀ b, api (trlpNsReq (currentNamespace nsEnv)) = Except.ok b →
      (getTokenRateLimitPolicies api nsEnv now).2 =
        [trlpNsReq (currentNamespace nsEnv)])) :=
  ⟨listPolicies_fallback api _ _ transformAuthPolicy now,
   listPolicies_fallback api _ _ transformRateLimitPolicy now,
   listPolicies_fallback api _ _ transformTokenRateLimitPolicy now⟩

/-- Witness for `policies_namespace_then_cluster_fallback`: an API that
denies every request makes each method try namespace then cluster scope and
return no policies. -/
theorem policies_namespace_then_cluster_fallback_witness :
    (getAuthPolicies (fun _ => Except.error "forbidden") none "T").2 =
      [authPoliciesNsReq "llm", authPoliciesClusterReq] ∧
    (getAuthPolicies (fun _ => Except.error "forbidden") none "T").1 = [] ∧
    (getRateLimitPolicies (fun _ => Except.error "forbidden") none "T").2 =
      [rlpNsReq "llm", rlpClusterReq] ∧
    (getRateLimitPolicies (fun _ => Except.error "forbidden") none "T").1 =
      [] ∧
    (getTokenRateLimitPolicies (fun _ => Except.error "forbidden") none
      "T").2 = [trlpNsReq "llm", trlpClusterReq] ∧
    (getTokenRateLimitPolicies (fun _ => Except.error "forbidden") none
      "T").1 = [] := by
  have h := policies_namespace_then_cluster_fallback
    (fun _ => Except.error "forbidden") none "T"
  exact ⟨(h.1.1 "forbidden" rfl).1, (h.1.1 "forbidden" rfl).2 "forbidden" rfl,
    (h.2.1.1 "forbidden" rfl).1, (h.2.1.1 "forbidden" rfl).2 "forbidden" rfl,
    (h.2.2.1 "forbidden" rfl).1, (h.2.2.1 "forbidden" rfl).2 "forbidden" rfl⟩

/-!
## The `POST /chat/completions` simulator proxy (routes/simulator.ts)

Both handler variants share the guard: without a truthy `Authorization`
header they return 401 with `success: false` and
`error: 'Authorization header required'` before any upstream call.  The
upstream gateway is a parameter mapping the target URL to a thrown error or
a response; the second variant's metrics recording happens after the
upstream call inside its own swallowed `try/catch` and does not affect the
response.
-/

/-- Truthiness of a possibly-absent string header. -/
def truthyStr : Option String → Bool
  | some s => decide (s ≠ "")
  | none => false

/-- JS `String.includes` as a substring test. -/
def strIncludes (s pat : String) : Bool :=
  s.toList.tails.any (fun t => pat.toList.isPrefixOf t)

/-- `model?.includes('qwen') ? 'qwen3' : 'simulator'` (an absent model is
falsy, giving `'simulator'`). -/
def modelKeyOf (model : Option String) : String :=
  match model with
  | some m => if strIncludes m "qwen" then "qwen3" else "simulator"
  | none => "simulator"

/-- Outcome of the upstream `undici` request: a thrown error (network
failure) or a response with status code and body text. -/
inductive UpstreamOutcome where
  | err (msg : String) : UpstreamOutcome
  | resp (statusCode : ℕ) (bodyText : String) : UpstreamOutcome

/-- The response the handler sends (status, the envelope's `success` and
`error` fields, the wrapped data) plus whether the upstream gateway was
contacted. -/
structure SimResponse where
  status : ℕ
  success : Bool
  errorMsg : Option String
  data : Option Json
  upstreamCalled : Bool

/-- `JSON.parse(responseText)` with the fallback `{error: responseText}`. -/
def parseUpstreamBody (text : String) : Json :=
  match jsonParse text with
  | Except.ok j => j
  | Except.error _ => Json.obj [("error", Json.str text)]

/-- The shared handler body after target-URL selection: guard on the
`Authorization` header, then proxy and wrap the upstream response
(`success` iff 2xx), with the outer `catch` answering 500. -/
def chatCompletionsCore (authHeader : Option String)
    (upstream : String → UpstreamOutcome) (targetUrl : String) :
    SimResponse :=
  if !truthyStr authHeader then
    { status := 401
      success := false
      errorMsg := some "Authorization header required"
      data := none
      upstreamCalled := false }
  else
    match upstream targetUrl with
    | UpstreamOutcome.err _ =>
      { status := 500
        success := false
        errorMsg := some "Failed to proxy request to model server"
        data := none
        upstreamCalled := true }
    | UpstreamOutcome.resp sc text =>
      { status := sc
        success := decide (200 ≤ sc) && decide (sc < 300)
        errorMsg := none
        data := some (parseUpstreamBody text)
        upstreamCalled := true }

/-- First `POST /chat/completions` variant: targets the model service URLs
(`QWEN3_URL`/`SIMULATOR_URL` with their defaults) chosen by the model key. -/
def chatCompletionsDirect (authHeader : Option String)
    (model : Option String) (envQwen3Url envSimulatorUrl : Option String)
    (upstream : String → UpstreamOutcome) : SimResponse :=
  let modelKey := modelKeyOf model
  let baseUrl :=
    if modelKey = "qwen3" then
      jsOrStr envQwen3Url
        "http://qwen3-llm.apps.summit-gpu.octo-emerging.redhataicoe.com"
    else
      jsOrStr envSimulatorUrl
        "http://simulator-llm.apps.summit-gpu.octo-emerging.redhataicoe.com"
  chatCompletionsCore authHeader upstream (baseUrl ++ "/v1/chat/completions")

/-- Second `POST /chat/completions` variant: targets the Kuadrant gateway
(`KUADRANT_GATEWAY_URL`, default `http://localhost:8080`); the simulator
metric it records after the upstream call does not change the response. -/
def chatCompletionsGateway (authHeader : Option String)
    (_model : Option String) (envKuadrantUrl : Option String)
    (upstream : String → UpstreamOutcome) : SimResponse :=
  let kuadrantUrl := jsOrStr envKuadrantUrl "http://localhost:8080"
  chatCompletionsCore authHeader upstream
    (kuadrantUrl ++ "/v1/chat/completions")

/-- C10. With no `Authorization` header, both simulator-proxy variants
answer 401 with `success: false` and `error: 'Authorization header
required'` and never contact the upstream gateway. -/
theorem chat_completions_requires_auth_header (model : Option String)
    (envQwen3Url envSimulatorUrl envKuadrantUrl : Option String)
    (upstream : String → UpstreamOutcome) :
    chatCompletionsDirect none model envQwen3Url envSimulatorUrl upstream =
      { status := 401
        success := false
        errorMsg := some "Authorization header required"
        data := none
        upstreamCalled := false } ∧
    chatCompletionsGateway none model envKuadrantUrl upstream =
      { status := 401
        success := false
        errorMsg := some "Authorization header required"
        data := none
        upstreamCalled := false } :=
  ⟨rfl, rfl⟩

end Maas
